/-
Verification of the e6-daq ingestion-evaluation pipeline
(`pipeline_builder.py`): shot-number extraction, the shot-correlation
acceptance policy, the score tracker, sink message construction, the
spectral (FFT) estimator, and the dispatcher loop.  Timestamps and file
times are modelled as rationals; numpy arrays as lists; Python dicts as
association lists with most-recent-wins lookup.
-/
import Mathlib

namespace E6Daq

/-! ## Shot-number extraction (`extract_shot_num_from_filename`)

The source uses `re.search(r'_(\d{5})', filename)`: the leftmost position
at which an underscore is immediately followed by five (ASCII) digits;
the value of those five digits is returned, else `-1`. -/

/-- Numeric value of a digit string, as Python `int` on a run of digits. -/
def digitsToNat (cs : List Char) : Nat :=
  cs.foldl (fun acc c => 10 * acc + (c.toNat - '0'.toNat)) 0

/-- If the list starts with five digits, their numeric value (the regex
group `(\d{5})` matched at this position), else `none`. -/
def fiveDigitsHead : List Char → Option Nat
  | d1 :: d2 :: d3 :: d4 :: d5 :: _ =>
    if d1.isDigit && d2.isDigit && d3.isDigit && d4.isDigit && d5.isDigit then
      some (digitsToNat [d1, d2, d3, d4, d5])
    else none
  | _ => none

/-- Scan left to right for the first `_` followed by five digits,
mirroring `re.search`'s leftmost-match discipline. -/
def searchShot : List Char → Option Nat
  | [] => none
  | c :: rest =>
    if c = '_' then
      match fiveDigitsHead rest with
      | some v => some v
      | none => searchShot rest
    else searchShot rest

/-- Embedding of `extract_shot_num_from_filename` (pipeline_builder.py lines 27-33). -/
def extract_shot_num_from_filename (filename : String) : Int :=
  match searchShot filename.data with
  | some v => (v : Int)
  | none => -1

/-- Whether the regex pattern matches at position `i` of the character
list, and with what group value: `_` at `i` immediately followed by five
digits.  Used to state leftmost-match correctness. -/
def matchValueAt (cs : List Char) (i : Nat) : Option Nat :=
  match cs.drop i with
  | [] => none
  | c :: rest => if c = '_' then fiveDigitsHead rest else none

/-! ## Spectral estimator (`perform_fft`, lines 197-239) -/

/-- Embedding of `np.diff`: consecutive differences. -/
def npDiff (l : List ℚ) : List ℚ :=
  (l.zip l.tail).map (fun p => p.2 - p.1)

/-- The check `np.all(np.diff(timestamps) > 0)` of line 209. -/
def increasingCheck (ts : List ℚ) : Bool :=
  (npDiff ts).all (fun d => decide (0 < d))

/-- Embedding of `np.mean` (sum divided by length; `0` on the empty list,
as rational division by zero). -/
def npMean (l : List ℚ) : ℚ := l.sum / l.length

/-- Python `int()` applied to a rational: truncation toward zero. -/
def intTrunc (q : ℚ) : Int := if q < 0 then ⌈q⌉ else ⌊q⌋

/-- The timestamp series the estimator works on: the input itself when
`np.all(np.diff(timestamps) > 0)`, else `np.sort(timestamps)`. -/
def sortedTs (ts : List ℚ) : List ℚ :=
  if increasingCheck ts then ts else ts.insertionSort (· ≤ ·)

/-- The quantity `dt = np.mean(np.diff(timestamps))` after the potential sort. -/
def dtOf (ts : List ℚ) : ℚ := npMean (npDiff (sortedTs ts))

/-- The count `num_samples = int((max_time - min_time) / dt)` where `min_time` and
`max_time` are the first and last entries after the potential sort. -/
def numSamplesOf (ts : List ℚ) : Int :=
  intTrunc (((sortedTs ts).getLastD 0 - (sortedTs ts).headD 0) / dtOf ts)

/-- Embedding of `np.linspace(a, b, num)`: `num` evenly spaced points from `a` to `b`
inclusive.  For `num = 1` the division by zero yields `[a]`, matching
numpy; `num = 0` yields `[]`. -/
def linspace (a b : ℚ) (num : Nat) : List ℚ :=
  (List.range num).map (fun i => a + i * (b - a) / ((num : ℚ) - 1))

/-- Helper for `np.interp` with `xp` ascending: piecewise-linear
interpolation, clamped to the end values outside the range. -/
def npInterpAux (x : ℚ) : (ℚ × ℚ) → List (ℚ × ℚ) → ℚ
  | (_, y0), [] => y0
  | (x0, y0), (x1, y1) :: rest =>
    if x ≤ x0 then y0
    else if x ≤ x1 then y0 + (y1 - y0) * (x - x0) / (x1 - x0)
    else npInterpAux x (x1, y1) rest

/-- Embedding of `np.interp` over parallel lists of sample points and values. -/
def npInterp (x : ℚ) (xp fp : List ℚ) : ℚ :=
  match xp.zip fp with
  | [] => 0
  | p :: rest => npInterpAux x p rest

/-- Embedding of `np.fft.fftfreq n d` at index `k`: `k/(n*d)` for `k` in the
non-negative half `[0, (n+1)/2)`, else `(k-n)/(n*d)`. -/
def fftfreq (n : Nat) (d : ℚ) (k : Nat) : ℚ :=
  if k < (n + 1) / 2 then (k : ℚ) / (n * d) else ((k : ℚ) - n) / (n * d)

/-- Boolean-mask indexing `arr[mask]` of numpy, over lists. -/
def boolMask {α : Type} (mask : List Bool) (l : List α) : List α :=
  (mask.zip l).filterMap (fun p => if p.1 then some p.2 else none)

/-- Embedding of `np.fft.fft(signal)[k]`: the `k`-th DFT coefficient
`Σ_j signal[j]·exp(-2πi·j·k/n)`. -/
noncomputable def dftCoeff (signal : List ℚ) (k : Nat) : ℂ :=
  ∑ j ∈ Finset.range signal.length,
    (signal.getD j 0 : ℂ) *
      Complex.exp (-2 * Real.pi * Complex.I * (j : ℂ) * (k : ℂ) / (signal.length : ℂ))

/-- A `SpectralResult`: the `{'freq': ..., 'amplitude': ...}` dict built
by `perform_fft`. -/
structure FftData where
  freq : List ℚ
  amplitude : List ℝ

/-- The uniform-grid signal of lines 226-227: the constant-1 sequence at
the (possibly sorted) event times, linearly interpolated onto
`np.linspace(min_time, max_time, n)`. -/
def signalOn (ts : List ℚ) (n : Nat) : List ℚ :=
  (linspace (ts.headD 0) (ts.getLastD 0) n).map
    (fun x => npInterp x ts (ts.map (fun _ => (1 : ℚ))))

/-- The successful tail of `perform_fft` (lines 226-236): uniform grid,
interpolated constant-1 signal, DFT, and the `fft_freq > 0` mask applied
to both the frequency and (absolute) value arrays. -/
noncomputable def mkFft (ts : List ℚ) (dt : ℚ) (n : Nat) : FftData :=
  let signal := signalOn ts n
  let fullFreq := (List.range n).map (fftfreq n dt)
  let mask := fullFreq.map (fun f => decide (0 < f))
  { freq := boolMask mask fullFreq
    amplitude := (boolMask mask ((List.range n).map (dftCoeff signal))).map Complex.abs }

/-- Embedding of `perform_fft` (lines 197-239).  The input is the `timestamps` array
of the saved artifact when present (`none` models a file without a
`timestamps` key). -/
noncomputable def perform_fft (fileData : Option (List ℚ)) : Option FftData :=
  match fileData with
  | none => none
  | some timestamps =>
    if timestamps.length < 2 then none
    else
      let ts := sortedTs timestamps
      let dt := dtOf timestamps
      if dt ≤ 0 then none
      else
        let num_samples := numSamplesOf timestamps
        if num_samples ≤ 0 then none
        else some (mkFft ts dt num_samples.toNat)

/-! ## Stats dictionaries and the evaluator (`evaluate_file`, lines 141-195) -/

/-- Values stored in a stats dict.  `summary` models the content of the
formatted `summary_statistics` string (file time, JKAM shot label, JKAM
time or `N/A`); the `%.2f` float rendering is abstracted to the value. -/
inductive Val where
  | int (n : Int)
  | rat (q : ℚ)
  | str (s : String)
  | bool (b : Bool)
  | fftOpt (f : Option FftData)
  | summary (fileTime : ℚ) (jkShot : String) (jkTime : Option ℚ)

/-- A Python dict of stats: association list, latest assignment first. -/
abbrev Dict := List (String × Val)

/-- Dict assignment `d[k] = v`. -/
def dictInsert (d : Dict) (k : String) (v : Val) : Dict := (k, v) :: d

/-- Dict lookup `d[k]` (most recent assignment wins). -/
def dictGet (d : Dict) (k : String) : Option Val :=
  (d.find? (fun p => p.1 == k)).map (fun p => p.2)

/-- Embedding of `np.median`: middle element of the sorted list, or the mean of the
two middle elements for even length. -/
def npMedian (l : List ℚ) : ℚ :=
  let s := l.insertionSort (· ≤ ·)
  if s.length % 2 = 1 then s.getD (s.length / 2) 0
  else (s.getD (s.length / 2 - 1) 0 + s.getD (s.length / 2) 0) / 2

/-- The `FileProcessor` state: reference-dataset fields set by
`load_all_data` and the three score counters (lines 43-51).  The
per-shot raw-timestamp store `pt_timestamp_array` is a list of optional
per-shot arrays (`None` entries allowed), or `none` when the file was
missing/corrupt. -/
structure FileProcessor where
  jkam_data_loaded : Bool
  jkam_counts_len : Nat
  pt_timestamp_array : Option (List (Option (List ℚ)))
  total_accepted_files : Int
  total_files_processed : Int
  cumulative_value : Int

/-- The `FileProcessor` counter state after `__init__` (lines 49-51);
reference fields as when no data files are present. -/
def initProcessor : FileProcessor :=
  { jkam_data_loaded := false
    jkam_counts_len := 0
    pt_timestamp_array := none
    total_accepted_files := 0
    total_files_processed := 0
    cumulative_value := 0 }

/-- The JKAM-time lookup of lines 163-170: requires the per-shot store
to be loaded, the index in range, the entry non-`None` and non-empty;
then reports the median of the per-shot array. -/
def ptLookup (pt : Option (List (Option (List ℚ)))) (shot_num : Int) : Option ℚ :=
  match pt with
  | none => none
  | some arrs =>
    if shot_num < (arrs.length : Int) then
      match arrs.getD shot_num.toNat none with
      | none => none
      | some arr => if 0 < arr.length then some (npMedian arr) else none
    else none

/-- The four local variables `accepted, space_correct, jk_shot, jk_time`
set by the branching of `evaluate_file` (lines 146-175). -/
structure EvalDecision where
  accepted : Bool
  space_correct : Bool
  jk_shot : String
  jk_time : Option ℚ

/-- The branching of `evaluate_file` lines 146-175 as a function of the
reference-dataset state and the extracted shot number. -/
def evalDecision (fp : FileProcessor) (shot_num : Int) : EvalDecision :=
  if fp.jkam_data_loaded = false then
    ⟨true, true, "N/A", none⟩
  else
    let max_shots : Int := fp.jkam_counts_len
    if shot_num < 0 then ⟨true, true, "N/A", none⟩
    else if 0 ≤ shot_num ∧ shot_num < max_shots then
      ⟨true, true, toString shot_num, ptLookup fp.pt_timestamp_array shot_num⟩
    else
      ⟨false, false, toString shot_num ++ " (Invalid)", none⟩

/-- Embedding of `evaluate_file` (lines 141-195).  `mtime` is the result of
`os.path.getmtime`; `none` models that call raising, in which case the
`except` branch returns `(False, {})`. -/
def evaluate_file (fp : FileProcessor) (filename : String) (mtime : Option ℚ) :
    Bool × Dict :=
  match mtime with
  | none => (false, [])
  | some file_creation_time =>
    let d := evalDecision fp (extract_shot_num_from_filename filename)
    (d.accepted,
      [("file_creation_time", Val.rat file_creation_time),
       ("matched_jkam_shot", Val.str d.jk_shot),
       ("space_correct", Val.bool d.space_correct),
       ("summary_statistics", Val.summary file_creation_time d.jk_shot d.jk_time)])

/-! ## Score tracker and per-file pipeline (`process_file`, lines 97-139) -/

/-- The counter updates of lines 125-130. -/
def update_score (fp : FileProcessor) (accepted : Bool) : FileProcessor :=
  let fp1 := { fp with total_files_processed := fp.total_files_processed + 1 }
  if accepted then
    { fp1 with
      total_accepted_files := fp1.total_accepted_files + 1
      cumulative_value := fp1.cumulative_value + 1 }
  else
    { fp1 with cumulative_value := 0 }

/-- Fold of the score update over a sequence of accept/reject outcomes
of fully-evaluated artifacts. -/
def run_scores (fp : FileProcessor) (bs : List Bool) : FileProcessor :=
  bs.foldl update_score fp

/-- What the external Artifact Producer run yields for a file: the
processed file's name, its `os.path.getmtime` (or `none` if that call
raises later), and the `timestamps` array of the saved bundle (or
`none` if absent). -/
structure FileOut where
  name : String
  mtime : Option ℚ
  tsData : Option (List ℚ)

/-- One queued file: its extension and the behaviour of the producer
call on it — `Except.error` models an uncaught exception escaping the
producer, `.ok none` a producer returning `None`. -/
structure WorkItem where
  suffix : String
  producer : Except String (Option FileOut)

/-- A message published to the Result Sink (`display_queue.put`,
line 138): `(processor_type, output_file, accepted, stats)`. -/
structure Message where
  ptype : String
  fileName : String
  accepted : Bool
  stats : Dict

/-- Registry lookup `self.processors.get(filepath.suffix)`. -/
def lookupRegistry (registry : List (String × String)) (suffix : String) :
    Option String :=
  (registry.find? (fun p => p.1 == suffix)).map (fun p => p.2)

/-- Embedding of `process_file` (lines 97-139).  Returns the updated processor state
and the message published to the sink (`none` when the file is dropped
before evaluation); `Except.error` propagates an uncaught producer
exception to the caller (`process_queue`). -/
noncomputable def process_file (fp : FileProcessor)
    (registry : List (String × String)) (item : WorkItem) :
    Except String (FileProcessor × Option Message) :=
  match lookupRegistry registry item.suffix with
  | none => .ok (fp, none)
  | some ptype =>
    match (if ptype = "photon" ∨ ptype = "fpga" ∨ ptype = "gagescope"
           then item.producer else .ok none) with
    | .error e => .error e
    | .ok none => .ok (fp, none)
    | .ok (some f) =>
      let er := evaluate_file fp f.name f.mtime
      let accepted := er.1
      let stats1 :=
        if ptype = "gagescope" then
          dictInsert er.2 "fft_data" (Val.fftOpt (perform_fft f.tsData))
        else
          dictInsert er.2 "fft_data" (Val.fftOpt none)
      let fp1 := update_score fp accepted
      let stats2 := dictInsert stats1 "cumulative_value" (Val.int fp1.cumulative_value)
      let stats3 := dictInsert stats2 "experiment_number" (Val.int fp1.total_files_processed)
      let stats4 := dictInsert stats3 "file_name" (Val.str f.name)
      let stats5 := dictInsert stats4 "accepted" (Val.bool accepted)
      let stats6 := dictInsert stats5 "processor_type" (Val.str ptype)
      .ok (fp1, some ⟨ptype, f.name, accepted, stats6⟩)

/-- The accepted flag of the message a `process_file` run published,
when one was. -/
noncomputable def acceptedOf (r : Except String (FileProcessor × Option Message)) :
    Option Bool :=
  match r with
  | .ok (_, some m) => some m.accepted
  | _ => none

/-! ## Dispatcher loop (`process_queue`, lines 254-262) -/

/-- One queue poll: `Empty` timeout, or an item. -/
inductive QueueGet where
  | empty
  | item (it : WorkItem)

/-- One iteration of the `process_queue` loop body: timeouts re-poll;
any exception out of `process_file` is caught, logged and dropped. -/
noncomputable def process_queue_step (fp : FileProcessor)
    (registry : List (String × String)) (g : QueueGet) :
    FileProcessor × Option Message :=
  match g with
  | .empty => (fp, none)
  | .item it =>
    match process_file fp registry it with
    | .ok r => r
    | .error _ => (fp, none)

/-- The dispatcher loop over a finite sequence of queue polls (the polls
taken while `should_continue` holds), collecting the published sink
messages in order.  Nothing is ever re-enqueued. -/
noncomputable def process_queue_run (fp : FileProcessor)
    (registry : List (String × String)) : List QueueGet → FileProcessor × List Message
  | [] => (fp, [])
  | g :: rest =>
    let s := process_queue_step fp registry g
    let r := process_queue_run s.1 registry rest
    (r.1, match s.2 with | some msg => msg :: r.2 | none => r.2)

/-! ## Acceptance policy (a): intra-file spacing regularity

Modelled from the spec: the intra-file spacing-regularity policy
(spec §4.4(a)) is not present under `src/` — only its stats consumer
(`gui.py`, `percent_space_correct`) and the spec describe it.  The
definitions below follow the spec's words: `avg_gap = (t[n-1] - t[0]) /
(n-1)`; index `i` is locally correct iff `(i==0 or |t[i]-t[i-1]-avg_gap|
≤ R·avg_gap)` and `(i==n-1 or |t[i+1]-t[i]-avg_gap| ≤ R·avg_gap)` with
`R = 0.2`; accept iff `(count_locally_correct / n) * 100 ≥ 80.0`. -/

/-- Modelled from the spec: `avg_gap = (t[n-1] - t[0]) / (n-1)`. -/
def avg_gap (ts : List ℚ) : ℚ :=
  (ts.getLastD 0 - ts.headD 0) / ((ts.length - 1 : Nat) : ℚ)

/-- Modelled from the spec: local correctness of sample `i` under
deviation ratio `R = 0.2 = 1/5`. -/
def locallyCorrect (ts : List ℚ) (i : Nat) : Bool :=
  let g := avg_gap ts
  (decide (i = 0) || decide (|ts.getD i 0 - ts.getD (i - 1) 0 - g| ≤ (1 / 5) * g)) &&
  (decide (i = ts.length - 1) ||
    decide (|ts.getD (i + 1) 0 - ts.getD i 0 - g| ≤ (1 / 5) * g))

/-- Modelled from the spec: `count_locally_correct`. -/
def countLocallyCorrect (ts : List ℚ) : Nat :=
  ((List.range ts.length).filter (locallyCorrect ts)).length

/-- Modelled from the spec: `(count_locally_correct / n) * 100`. -/
def percentCorrect (ts : List ℚ) : ℚ :=
  ((countLocallyCorrect ts : ℚ) / (ts.length : ℚ)) * 100

/-- Modelled from the spec: accept iff the percentage of locally correct
samples is at least `80.0` (inclusive boundary). -/
def policy_a_accept (ts : List ℚ) : Bool :=
  decide (80 ≤ percentCorrect ts)

/-- A perfectly regular timestamp series: `n` samples starting at `t`
with constant gap `g`. -/
def uniformSeries : ℚ → ℚ → Nat → List ℚ
  | _, _, 0 => []
  | t, g, n + 1 => t :: uniformSeries (t + g) g n

/-! ## Lemmas: shot extraction -/

theorem matchValueAt_nil (i : Nat) : matchValueAt [] i = none := by
  simp [matchValueAt]

theorem matchValueAt_cons_zero (c : Char) (cs : List Char) :
    matchValueAt (c :: cs) 0 = if c = '_' then fiveDigitsHead cs else none := by
  simp [matchValueAt]

theorem matchValueAt_cons_succ (c : Char) (cs : List Char) (i : Nat) :
    matchValueAt (c :: cs) (i + 1) = matchValueAt cs i := by
  simp [matchValueAt, List.drop_succ_cons]

/-- The scan `searchShot` returns the leftmost match of the pattern, in the sense
of `matchValueAt`, or `none` when no position matches. -/
theorem searchShot_spec (cs : List Char) :
    (searchShot cs = none ∧ ∀ i, matchValueAt cs i = none) ∨
    (∃ i v, matchValueAt cs i = some v ∧ (∀ j, j < i → matchValueAt cs j = none) ∧
      searchShot cs = some v) := by
  induction cs with
  | nil => exact Or.inl ⟨rfl, matchValueAt_nil⟩
  | cons c rest ih =>
    by_cases hc : c = '_'
    · cases hf : fiveDigitsHead rest with
      | some v =>
        refine Or.inr ⟨0, v, ?_, ?_, ?_⟩
        · rw [matchValueAt_cons_zero, if_pos hc, hf]
        · intro j hj; omega
        · simp [searchShot, hc, hf]
      | none =>
        have hstep : searchShot (c :: rest) = searchShot rest := by
          simp [searchShot, hc, hf]
        have hzero : matchValueAt (c :: rest) 0 = none := by
          rw [matchValueAt_cons_zero, if_pos hc, hf]
        rcases ih with ⟨h1, h2⟩ | ⟨i, v, h1, h2, h3⟩
        · refine Or.inl ⟨hstep.trans h1, fun i => ?_⟩
          cases i with
          | zero => exact hzero
          | succ k => rw [matchValueAt_cons_succ]; exact h2 k
        · refine Or.inr ⟨i + 1, v, ?_, ?_, hstep.trans h3⟩
          · rw [matchValueAt_cons_succ]; exact h1
          · intro j hj
            cases j with
            | zero => exact hzero
            | succ k => rw [matchValueAt_cons_succ]; exact h2 k (by omega)
    · have hstep : searchShot (c :: rest) = searchShot rest := by
        simp [searchShot, hc]
      have hzero : matchValueAt (c :: rest) 0 = none := by
        rw [matchValueAt_cons_zero, if_neg hc]
      rcases ih with ⟨h1, h2⟩ | ⟨i, v, h1, h2, h3⟩
      · refine Or.inl ⟨hstep.trans h1, fun i => ?_⟩
        cases i with
        | zero => exact hzero
        | succ k => rw [matchValueAt_cons_succ]; exact h2 k
      · refine Or.inr ⟨i + 1, v, ?_, ?_, hstep.trans h3⟩
        · rw [matchValueAt_cons_succ]; exact h1
        · intro j hj
          cases j with
          | zero => exact hzero
          | succ k => rw [matchValueAt_cons_succ]; exact h2 k (by omega)

/-- Extraction never yields anything below `-1`. -/
theorem neg_one_le_extract (s : String) : -1 ≤ extract_shot_num_from_filename s := by
  unfold extract_shot_num_from_filename
  cases searchShot s.data with
  | none => simp
  | some v =>
    exact le_trans (by norm_num : (-1 : Int) ≤ 0) (Int.natCast_nonneg v)

/-- Claim C2: for every file name, shot-number extraction returns the
integer value of the first run of 5 digits immediately following an
underscore (the leftmost position at which an underscore is followed by
five digits, with the value of those five digits), and `-1` when no such
position exists; `"gage_shot_00042_foo.h5"` yields 42, `"nomatch.h5"`
yields `-1`, and an extraction result of `-1` leads to auto-acceptance
by the evaluator. -/
theorem shot_extraction_first_five_digit_run :
    (∀ s : String,
      (extract_shot_num_from_filename s = -1 ∧ ∀ i, matchValueAt s.data i = none) ∨
      (∃ i v, matchValueAt s.data i = some v ∧
        (∀ j, j < i → matchValueAt s.data j = none) ∧
        extract_shot_num_from_filename s = (v : Int))) ∧
    extract_shot_num_from_filename "gage_shot_00042_foo.h5" = 42 ∧
    extract_shot_num_from_filename "nomatch.h5" = -1 ∧
    (∀ (fp : FileProcessor) (fn : String) (t : ℚ),
      extract_shot_num_from_filename fn = -1 →
      (evaluate_file fp fn (some t)).1 = true) := by
  refine ⟨?_, by decide, by decide, ?_⟩
  · intro s
    rcases searchShot_spec s.data with ⟨h1, h2⟩ | ⟨i, v, h1, h2, h3⟩
    · refine Or.inl ⟨?_, h2⟩
      unfold extract_shot_num_from_filename
      rw [h1]
    · refine Or.inr ⟨i, v, h1, h2, ?_⟩
      unfold extract_shot_num_from_filename
      rw [h3]
  · intro fp fn t h
    show (evalDecision fp (extract_shot_num_from_filename fn)).accepted = true
    rw [h]
    by_cases hl : fp.jkam_data_loaded <;> simp [evalDecision, hl]

/-- Witness for C2's auto-acceptance clause at a concrete input. -/
theorem shot_extraction_first_five_digit_run_witness :
    (evaluate_file initProcessor "nomatch.h5" (some 0)).1 = true :=
  shot_extraction_first_five_digit_run.2.2.2 initProcessor "nomatch.h5" 0
    shot_extraction_first_five_digit_run.2.2.1

/-! ## Lemmas: the shot-correlation evaluator -/

theorem evalDecision_not_loaded (fp : FileProcessor) (sn : Int)
    (h : fp.jkam_data_loaded = false) :
    evalDecision fp sn = ⟨true, true, "N/A", none⟩ := by
  simp [evalDecision, h]

theorem evalDecision_neg (fp : FileProcessor) (sn : Int)
    (h : fp.jkam_data_loaded = true) (hsn : sn < 0) :
    evalDecision fp sn = ⟨true, true, "N/A", none⟩ := by
  simp [evalDecision, h, hsn]

theorem evalDecision_in_range (fp : FileProcessor) (sn : Int)
    (h : fp.jkam_data_loaded = true) (h0 : 0 ≤ sn)
    (h1 : sn < (fp.jkam_counts_len : Int)) :
    evalDecision fp sn =
      ⟨true, true, toString sn, ptLookup fp.pt_timestamp_array sn⟩ := by
  rw [evalDecision, if_neg (by simp [h]), if_neg (by omega), if_pos ⟨h0, h1⟩]

theorem evalDecision_out_of_range (fp : FileProcessor) (sn : Int)
    (h : fp.jkam_data_loaded = true) (h0 : 0 ≤ sn)
    (h1 : ¬ sn < (fp.jkam_counts_len : Int)) :
    evalDecision fp sn = ⟨false, false, toString sn ++ " (Invalid)", none⟩ := by
  rw [evalDecision, if_neg (by simp [h]), if_neg (by omega),
    if_neg (by exact fun hx => h1 hx.2)]

theorem ptLookup_found (pt : Option (List (Option (List ℚ)))) (sn : Int)
    (arrs : List (Option (List ℚ))) (arr : List ℚ)
    (hpt : pt = some arrs) (hlen : sn < (arrs.length : Int))
    (hget : arrs.getD sn.toNat none = some arr) (hpos : 0 < arr.length) :
    ptLookup pt sn = some (npMedian arr) := by
  rw [hpt]
  simp only [ptLookup, if_pos hlen, hget, if_pos hpos]

theorem ptLookup_unavailable (pt : Option (List (Option (List ℚ)))) (sn : Int)
    (h : ¬ ∃ arrs arr, pt = some arrs ∧ sn < (arrs.length : Int) ∧
      arrs.getD sn.toNat none = some arr ∧ 0 < arr.length) :
    ptLookup pt sn = none := by
  cases hpt : pt with
  | none => rfl
  | some arrs =>
    by_cases hlen : sn < (arrs.length : Int)
    · cases hget : arrs.getD sn.toNat none with
      | none => simp only [ptLookup, if_pos hlen, hget]
      | some arr =>
        by_cases hpos : 0 < arr.length
        · exact absurd ⟨arrs, arr, hpt, hlen, hget, hpos⟩ h
        · simp only [ptLookup, if_pos hlen, hget, if_neg hpos]
    · simp only [ptLookup, if_neg hlen]

/-- The stats dict built on the success path of `evaluate_file`. -/
theorem evaluate_file_some (fp : FileProcessor) (fn : String) (t : ℚ) :
    evaluate_file fp fn (some t) =
      ((evalDecision fp (extract_shot_num_from_filename fn)).accepted,
       [("file_creation_time", Val.rat t),
        ("matched_jkam_shot",
          Val.str (evalDecision fp (extract_shot_num_from_filename fn)).jk_shot),
        ("space_correct",
          Val.bool (evalDecision fp (extract_shot_num_from_filename fn)).space_correct),
        ("summary_statistics",
          Val.summary t (evalDecision fp (extract_shot_num_from_filename fn)).jk_shot
            (evalDecision fp (extract_shot_num_from_filename fn)).jk_time)]) := rfl

/-- Claim C1: under the shot-correlation policy with a Reference Dataset
loaded, an in-range shot index is accepted and the reported matched
reference time is the median of the per-shot raw-timestamp array when
that array is present, long enough and non-empty at the index, else the
lookup is reported unavailable (`N/A`); an out-of-range shot index other
than `-1` is rejected with the match marked invalid; a shot index of
`-1` is accepted with no lookup; with no Reference Dataset loaded,
evaluation accepts. -/
theorem shot_correlation_policy (fp : FileProcessor) (fn : String) (t : ℚ) :
    (fp.jkam_data_loaded = true →
      0 ≤ extract_shot_num_from_filename fn →
      extract_shot_num_from_filename fn < (fp.jkam_counts_len : Int) →
      (evaluate_file fp fn (some t)).1 = true ∧
      dictGet (evaluate_file fp fn (some t)).2 "summary_statistics" =
        some (Val.summary t (toString (extract_shot_num_from_filename fn))
          (ptLookup fp.pt_timestamp_array (extract_shot_num_from_filename fn))) ∧
      (∀ arrs arr, fp.pt_timestamp_array = some arrs →
        extract_shot_num_from_filename fn < (arrs.length : Int) →
        arrs.getD (extract_shot_num_from_filename fn).toNat none = some arr →
        0 < arr.length →
        ptLookup fp.pt_timestamp_array (extract_shot_num_from_filename fn) =
          some (npMedian arr)) ∧
      (¬ (∃ arrs arr, fp.pt_timestamp_array = some arrs ∧
            extract_shot_num_from_filename fn < (arrs.length : Int) ∧
            arrs.getD (extract_shot_num_from_filename fn).toNat none = some arr ∧
            0 < arr.length) →
        ptLookup fp.pt_timestamp_array (extract_shot_num_from_filename fn) = none)) ∧
    (fp.jkam_data_loaded = true →
      ¬ (0 ≤ extract_shot_num_from_filename fn ∧
          extract_shot_num_from_filename fn < (fp.jkam_counts_len : Int)) →
      extract_shot_num_from_filename fn ≠ -1 →
      (evaluate_file fp fn (some t)).1 = false ∧
      dictGet (evaluate_file fp fn (some t)).2 "matched_jkam_shot" =
        some (Val.str (toString (extract_shot_num_from_filename fn) ++ " (Invalid)"))) ∧
    (extract_shot_num_from_filename fn = -1 →
      (evaluate_file fp fn (some t)).1 = true ∧
      dictGet (evaluate_file fp fn (some t)).2 "summary_statistics" =
        some (Val.summary t "N/A" none)) ∧
    (fp.jkam_data_loaded = false → (evaluate_file fp fn (some t)).1 = true) := by
  have hb := neg_one_le_extract fn
  refine ⟨?_, ?_, ?_, ?_⟩
  · intro h1 h2 h3
    rw [evaluate_file_some, evalDecision_in_range fp _ h1 h2 h3]
    refine ⟨rfl, rfl, ?_, ptLookup_unavailable _ _⟩
    intro arrs arr hpt hlen hget hpos
    exact ptLookup_found _ _ arrs arr hpt hlen hget hpos
  · intro h1 h2 h3
    have h0 : 0 ≤ extract_shot_num_from_filename fn := by omega
    have h4 : ¬ extract_shot_num_from_filename fn < (fp.jkam_counts_len : Int) := by
      intro hx; exact h2 ⟨h0, hx⟩
    rw [evaluate_file_some, evalDecision_out_of_range fp _ h1 h0 h4]
    exact ⟨rfl, rfl⟩
  · intro h1
    rw [evaluate_file_some, h1]
    by_cases hl : fp.jkam_data_loaded
    · rw [evalDecision_neg fp _ hl (by norm_num)]
      exact ⟨rfl, rfl⟩
    · rw [evalDecision_not_loaded fp _ (by simpa using hl)]
      exact ⟨rfl, rfl⟩
  · intro h1
    rw [evaluate_file_some, evalDecision_not_loaded fp _ h1]

/-- Witness for C1 at a concrete state: reference of 3 shots, per-shot
raw timestamps present only for shot 2, file name resolving to shot 2;
accepted, with the median of `[3, 1, 2]` reported. -/
theorem shot_correlation_policy_witness :
    (evaluate_file ⟨true, 3, some [none, none, some [3, 1, 2]], 0, 0, 0⟩
      "x_00002" (some 0)).1 = true ∧
    dictGet (evaluate_file ⟨true, 3, some [none, none, some [3, 1, 2]], 0, 0, 0⟩
      "x_00002" (some 0)).2 "summary_statistics" =
      some (Val.summary 0 "2" (some 2)) := by
  have h := (shot_correlation_policy
    ⟨true, 3, some [none, none, some [3, 1, 2]], 0, 0, 0⟩ "x_00002" 0).1
    rfl (by decide) (by decide)
  refine ⟨h.1, ?_⟩
  have hm := h.2.2.1 [none, none, some [3, 1, 2]] [3, 1, 2] rfl (by decide)
    (by decide) (by decide)
  rw [h.2.1, hm]
  rfl

/-! ## Lemmas: the score tracker -/

theorem update_score_total (fp : FileProcessor) (b : Bool) :
    (update_score fp b).total_files_processed = fp.total_files_processed + 1 := by
  cases b <;> simp [update_score]

theorem update_score_cumul_true (fp : FileProcessor) :
    (update_score fp true).cumulative_value = fp.cumulative_value + 1 := by
  simp [update_score]

theorem update_score_cumul_false (fp : FileProcessor) :
    (update_score fp false).cumulative_value = 0 := by
  simp [update_score]

theorem run_scores_total (fp : FileProcessor) (bs : List Bool) :
    (run_scores fp bs).total_files_processed =
      fp.total_files_processed + bs.length := by
  induction bs generalizing fp with
  | nil => simp [run_scores]
  | cons b bs ih =>
    show (run_scores (update_score fp b) bs).total_files_processed = _
    rw [ih, update_score_total]
    simp only [List.length_cons]
    push_cast
    ring

theorem run_scores_cumul_nonneg (fp : FileProcessor) (bs : List Bool)
    (h : 0 ≤ fp.cumulative_value) :
    0 ≤ (run_scores fp bs).cumulative_value := by
  induction bs generalizing fp with
  | nil => exact h
  | cons b bs ih =>
    show 0 ≤ (run_scores (update_score fp b) bs).cumulative_value
    refine ih _ ?_
    cases b
    · rw [update_score_cumul_false]
    · rw [update_score_cumul_true]; omega

/-- Claim C3: across every sequence of fully-evaluated artifacts,
`total_files_processed` grows by exactly one per artifact regardless of
the verdict; `cumulative_value` (the streak) grows by one on acceptance
and resets to zero on rejection, so from the initial state it never goes
negative; the accept/accept/reject/accept sequence yields streaks
1, 2, 0, 1. -/
theorem score_tracker (fp : FileProcessor) (bs : List Bool) :
    (run_scores fp bs).total_files_processed =
      fp.total_files_processed + bs.length ∧
    (∀ g : FileProcessor,
      (update_score g true).cumulative_value = g.cumulative_value + 1 ∧
      (update_score g false).cumulative_value = 0) ∧
    (0 ≤ fp.cumulative_value → 0 ≤ (run_scores fp bs).cumulative_value) ∧
    ((run_scores initProcessor ([true, true, false, true].take 1)).cumulative_value = 1 ∧
     (run_scores initProcessor ([true, true, false, true].take 2)).cumulative_value = 2 ∧
     (run_scores initProcessor ([true, true, false, true].take 3)).cumulative_value = 0 ∧
     (run_scores initProcessor ([true, true, false, true].take 4)).cumulative_value = 1) :=
  ⟨run_scores_total fp bs,
   fun g => ⟨update_score_cumul_true g, update_score_cumul_false g⟩,
   run_scores_cumul_nonneg fp bs,
   by decide⟩

/-- Witness for C3 at a concrete accept/reject sequence. -/
theorem score_tracker_witness :
    (run_scores initProcessor [true, false, true]).total_files_processed =
      initProcessor.total_files_processed + 3 ∧
    0 ≤ (run_scores initProcessor [true, false, true]).cumulative_value := by
  have h := score_tracker initProcessor [true, false, true]
  exact ⟨h.1, h.2.2.1 (by decide)⟩

/-! ## Lemmas: the per-file pipeline and the dispatcher -/

/-- Inversion of a `process_file` run that published a message: the
suffix was registered to one of the three producer categories, the
producer returned an output file, and the resulting state and message
are exactly those built by lines 117-138. -/
theorem process_file_ok_inv (fp : FileProcessor) (registry : List (String × String))
    (item : WorkItem) (fp2 : FileProcessor) (msg : Message)
    (h : process_file fp registry item = .ok (fp2, some msg)) :
    ∃ ptype f,
      lookupRegistry registry item.suffix = some ptype ∧
      item.producer = Except.ok (some f) ∧
      (ptype = "photon" ∨ ptype = "fpga" ∨ ptype = "gagescope") ∧
      fp2 = update_score fp (evaluate_file fp f.name f.mtime).1 ∧
      msg = ⟨ptype, f.name, (evaluate_file fp f.name f.mtime).1,
        ("processor_type", Val.str ptype) ::
        ("accepted", Val.bool (evaluate_file fp f.name f.mtime).1) ::
        ("file_name", Val.str f.name) ::
        ("experiment_number",
          Val.int (update_score fp
            (evaluate_file fp f.name f.mtime).1).total_files_processed) ::
        ("cumulative_value",
          Val.int (update_score fp
            (evaluate_file fp f.name f.mtime).1).cumulative_value) ::
        (if ptype = "gagescope" then
          ("fft_data", Val.fftOpt (perform_fft f.tsData)) ::
            (evaluate_file fp f.name f.mtime).2
         else
          ("fft_data", Val.fftOpt none) ::
            (evaluate_file fp f.name f.mtime).2)⟩ := by
  unfold process_file at h
  split at h
  · simp at h
  · rename_i ptype hreg
    split at h
    · simp at h
    · simp at h
    · rename_i f heq
      by_cases h3 : ptype = "photon" ∨ ptype = "fpga" ∨ ptype = "gagescope"
      · rw [if_pos h3] at heq
        simp only [Except.ok.injEq, Prod.mk.injEq, Option.some.injEq] at h
        obtain ⟨hfp, hmsg⟩ := h
        refine ⟨ptype, f, hreg, heq, h3, hfp.symm, ?_⟩
        rw [← hmsg]
        by_cases hg : ptype = "gagescope" <;>
          simp [dictInsert, hg]
      · rw [if_neg h3] at heq
        simp at heq

/-- Claim C4: every message published to the Result Sink carries stats
with keys `accepted`, `file_name`, `cumulative_value` (the streak after
this artifact) and `experiment_number` (`total_files_processed` after
this artifact), for every processor category, including when evaluation
failed internally and returned empty stats. -/
theorem sink_message_required_keys (fp : FileProcessor)
    (registry : List (String × String)) (item : WorkItem)
    (fp2 : FileProcessor) (msg : Message)
    (h : process_file fp registry item = .ok (fp2, some msg)) :
    dictGet msg.stats "accepted" = some (Val.bool msg.accepted) ∧
    dictGet msg.stats "file_name" = some (Val.str msg.fileName) ∧
    dictGet msg.stats "cumulative_value" = some (Val.int fp2.cumulative_value) ∧
    dictGet msg.stats "experiment_number" = some (Val.int fp2.total_files_processed) := by
  obtain ⟨ptype, f, hreg, hp, h3, hfp, hmsg⟩ :=
    process_file_ok_inv fp registry item fp2 msg h
  subst hfp
  subst hmsg
  exact ⟨rfl, rfl, rfl, rfl⟩

/-- Witness for C4: a photon-category file whose `getmtime` raised, so
evaluation returned `(False, {})`; the published stats still carry the
four required keys, with streak 0 and sequence number 1. -/
theorem sink_message_required_keys_witness :
    dictGet [("processor_type", Val.str "photon"), ("accepted", Val.bool false),
      ("file_name", Val.str "a.bin"), ("experiment_number", Val.int 1),
      ("cumulative_value", Val.int 0), ("fft_data", Val.fftOpt none)] "accepted" =
      some (Val.bool false) ∧
    dictGet [("processor_type", Val.str "photon"), ("accepted", Val.bool false),
      ("file_name", Val.str "a.bin"), ("experiment_number", Val.int 1),
      ("cumulative_value", Val.int 0), ("fft_data", Val.fftOpt none)] "file_name" =
      some (Val.str "a.bin") ∧
    dictGet [("processor_type", Val.str "photon"), ("accepted", Val.bool false),
      ("file_name", Val.str "a.bin"), ("experiment_number", Val.int 1),
      ("cumulative_value", Val.int 0), ("fft_data", Val.fftOpt none)] "cumulative_value" =
      some (Val.int 0) ∧
    dictGet [("processor_type", Val.str "photon"), ("accepted", Val.bool false),
      ("file_name", Val.str "a.bin"), ("experiment_number", Val.int 1),
      ("cumulative_value", Val.int 0), ("fft_data", Val.fftOpt none)] "experiment_number" =
      some (Val.int 1) := by
  have h := sink_message_required_keys initProcessor [(".bin", "photon")]
    ⟨".bin", .ok (some ⟨"a.bin", none, none⟩)⟩ ⟨false, 0, none, 0, 1, 0⟩
    ⟨"photon", "a.bin", false,
      [("processor_type", Val.str "photon"), ("accepted", Val.bool false),
       ("file_name", Val.str "a.bin"), ("experiment_number", Val.int 1),
       ("cumulative_value", Val.int 0), ("fft_data", Val.fftOpt none)]⟩ rfl
  exact ⟨h.1, h.2.1, h.2.2.1, h.2.2.2⟩

/-- Claim C10: spectral estimation is performed only for gagescope
artifacts — the published stats carry `fft_data = perform_fft` of the
artifact's timestamps exactly for the gagescope category and
`fft_data = None` for every other category; every published message
contains the `fft_data` key. -/
theorem fft_only_for_gagescope (fp : FileProcessor)
    (registry : List (String × String)) (item : WorkItem) (f : FileOut)
    (fp2 : FileProcessor) (msg : Message)
    (hf : item.producer = Except.ok (some f))
    (h : process_file fp registry item = .ok (fp2, some msg)) :
    dictGet msg.stats "fft_data" =
      some (Val.fftOpt
        (if msg.ptype = "gagescope" then perform_fft f.tsData else none)) := by
  obtain ⟨ptype, f', hreg, hp, h3, hfp, hmsg⟩ :=
    process_file_ok_inv fp registry item fp2 msg h
  rw [hf] at hp
  simp only [Except.ok.injEq, Option.some.injEq] at hp
  subst hp
  subst hmsg
  show dictGet (_ :: _ :: _ :: _ :: _ ::
      (if ptype = "gagescope" then
        ("fft_data", Val.fftOpt (perform_fft f.tsData)) :: _
       else ("fft_data", Val.fftOpt none) :: _)) "fft_data" =
    some (Val.fftOpt (if ptype = "gagescope" then perform_fft f.tsData else none))
  by_cases hg : ptype = "gagescope"
  · simp only [if_pos hg]
    rfl
  · simp only [if_neg hg]
    rfl

/-- Witness for C10: an fpga-category artifact with a timestamps array
present; the message still carries `fft_data = None`. -/
theorem fft_only_for_gagescope_witness :
    dictGet [("processor_type", Val.str "fpga"), ("accepted", Val.bool true),
      ("file_name", Val.str "b.bin"), ("experiment_number", Val.int 1),
      ("cumulative_value", Val.int 1), ("fft_data", Val.fftOpt none),
      ("file_creation_time", Val.rat 0), ("matched_jkam_shot", Val.str "N/A"),
      ("space_correct", Val.bool true),
      ("summary_statistics", Val.summary 0 "N/A" none)] "fft_data" =
      some (Val.fftOpt none) :=
  fft_only_for_gagescope initProcessor [(".bin", "fpga")]
    ⟨".bin", .ok (some ⟨"b.bin", some 0, some [0, 1]⟩)⟩
    ⟨"b.bin", some 0, some [0, 1]⟩ ⟨false, 0, none, 1, 1, 1⟩
    ⟨"fpga", "b.bin", true,
      [("processor_type", Val.str "fpga"), ("accepted", Val.bool true),
       ("file_name", Val.str "b.bin"), ("experiment_number", Val.int 1),
       ("cumulative_value", Val.int 1), ("fft_data", Val.fftOpt none),
       ("file_creation_time", Val.rat 0), ("matched_jkam_shot", Val.str "N/A"),
       ("space_correct", Val.bool true),
       ("summary_statistics", Val.summary 0 "N/A" none)]⟩ rfl rfl

/-- A `process_file` run whose producer raised or returned `None`
publishes nothing and leaves the state untouched. -/
theorem process_queue_step_drop (fp : FileProcessor)
    (registry : List (String × String)) (it : WorkItem)
    (h : it.producer = Except.ok none ∨ ∃ e, it.producer = Except.error e) :
    process_queue_step fp registry (.item it) = (fp, none) := by
  unfold process_queue_step process_file
  cases hreg : lookupRegistry registry it.suffix with
  | none => simp only [hreg]
  | some ptype =>
    simp only [hreg]
    by_cases h3 : ptype = "photon" ∨ ptype = "fpga" ∨ ptype = "gagescope"
    · rw [if_pos h3]
      rcases h with hnone | ⟨e, herr⟩
      · simp only [hnone]
      · simp only [herr]
    · rw [if_neg h3]

/-- A loop iteration whose step published nothing contributes nothing:
the run over the remaining polls is unchanged. -/
theorem process_queue_run_skip (fp : FileProcessor)
    (registry : List (String × String)) (g : QueueGet) (rest : List QueueGet)
    (hstep : process_queue_step fp registry g = (fp, none)) :
    process_queue_run fp registry (g :: rest) =
      process_queue_run fp registry rest := by
  simp only [process_queue_run, hstep]

/-- Claim C8: when the Artifact Producer returns absent, or an uncaught
exception occurs during a file's pipeline, the Dispatcher logs and drops
the file: no Result Sink message is published, the Score Tracker state
is unchanged, the worker loop continues over the remaining queue polls,
and the file is never re-enqueued (the run over the rest of the queue is
exactly as if the file had never arrived). -/
theorem dispatcher_drops_failed_files (fp : FileProcessor)
    (registry : List (String × String)) (it : WorkItem) (rest : List QueueGet) :
    (∀ e, it.producer = Except.error e →
      process_queue_step fp registry (.item it) = (fp, none) ∧
      process_queue_run fp registry (.item it :: rest) =
        process_queue_run fp registry rest) ∧
    (it.producer = Except.ok none →
      process_queue_step fp registry (.item it) = (fp, none) ∧
      process_queue_run fp registry (.item it :: rest) =
        process_queue_run fp registry rest) := by
  constructor
  · intro e he
    have hstep := process_queue_step_drop fp registry it (Or.inr ⟨e, he⟩)
    exact ⟨hstep, process_queue_run_skip fp registry _ rest hstep⟩
  · intro hn
    have hstep := process_queue_step_drop fp registry it (Or.inl hn)
    exact ⟨hstep, process_queue_run_skip fp registry _ rest hstep⟩

/-- Witness for C8: a registered fpga file whose producer raises. -/
theorem dispatcher_drops_failed_files_witness :
    process_queue_step initProcessor [(".bin", "fpga")]
      (.item ⟨".bin", Except.error "boom"⟩) = (initProcessor, none) ∧
    process_queue_run initProcessor [(".bin", "fpga")]
      [.item ⟨".bin", Except.error "boom"⟩] =
      process_queue_run initProcessor [(".bin", "fpga")] [] :=
  (dispatcher_drops_failed_files initProcessor [(".bin", "fpga")]
    ⟨".bin", Except.error "boom"⟩ []).1 "boom" rfl

/-- Counterexample to claim C5: a gagescope artifact whose `timestamps`
series is empty (0 samples, fewer than 2) reaching the Evaluator with an
in-range shot index (42 < 100) is accepted, not rejected — `evaluate_file`
never inspects the timestamps series. -/
theorem short_series_rejected_cex :
    ([] : List ℚ).length < 2 ∧
    acceptedOf (process_file ⟨true, 100, none, 0, 0, 0⟩ [(".h5", "gagescope")]
      ⟨".h5", .ok (some ⟨"gage_shot_00042_foo.h5", some 0, some []⟩)⟩) =
      some true := by
  exact ⟨by decide, rfl⟩

/-- Claim C5 as amended: artifacts whose `timestamps` series has fewer
than 2 samples are not rejected by the Evaluator — the accept/reject
verdict is entirely independent of the timestamps series; the
fewer-than-2-samples check lives only in the Spectral Estimator, which
returns an absent spectrum for such series. -/
theorem short_series_not_special_cased :
    (∀ (fp : FileProcessor) (registry : List (String × String))
        (suffix nm : String) (mt : Option ℚ) (d1 d2 : Option (List ℚ)),
      acceptedOf (process_file fp registry ⟨suffix, .ok (some ⟨nm, mt, d1⟩)⟩) =
        acceptedOf (process_file fp registry ⟨suffix, .ok (some ⟨nm, mt, d2⟩)⟩)) ∧
    (∀ ts : List ℚ, ts.length < 2 → perform_fft (some ts) = none) := by
  constructor
  · intro fp registry suffix nm mt d1 d2
    unfold acceptedOf process_file
    cases hreg : lookupRegistry registry suffix with
    | none => simp only [hreg]
    | some ptype =>
      by_cases h3 : ptype = "photon" ∨ ptype = "fpga" ∨ ptype = "gagescope"
      · simp only [hreg, if_pos h3]
      · simp only [hreg, if_neg h3]
  · intro ts h
    simp only [perform_fft, if_pos h]

/-- Witness for the amended C5: a single-sample series gets no
spectrum. -/
theorem short_series_not_special_cased_witness :
    perform_fft (some [(3 : ℚ)]) = none :=
  short_series_not_special_cased.2 [3] (by norm_num)

/-! ## Lemmas: the spectral estimator -/

theorem npDiff_cons₂ (x y : ℚ) (l : List ℚ) :
    npDiff (x :: y :: l) = (y - x) :: npDiff (y :: l) := rfl

theorem npDiff_replicate (n : Nat) (a : ℚ) :
    npDiff (List.replicate (n + 1) a) = List.replicate n 0 := by
  induction n with
  | zero => rfl
  | succ k ih =>
    rw [List.replicate_succ, List.replicate_succ, npDiff_cons₂,
      ← List.replicate_succ, ih]
    simp [List.replicate_succ]

theorem npMean_replicate (n : Nat) (a : ℚ) (h : 0 < n) :
    npMean (List.replicate n a) = a := by
  unfold npMean
  rw [List.sum_replicate, List.length_replicate, nsmul_eq_mul]
  exact mul_div_cancel_left₀ a (Nat.cast_ne_zero.2 h.ne')

theorem sortedTs_replicate (n : Nat) (a : ℚ) :
    sortedTs (List.replicate n a) = List.replicate n a := by
  unfold sortedTs
  split
  · rfl
  · exact List.Sorted.insertionSort_eq (List.pairwise_replicate.2 (Or.inr le_rfl))

theorem dtOf_replicate (n : Nat) (a : ℚ) (h : 2 ≤ n) :
    dtOf (List.replicate n a) = 0 := by
  obtain ⟨m, rfl⟩ : ∃ m, n = m + 2 := ⟨n - 2, by omega⟩
  unfold dtOf
  rw [sortedTs_replicate, show m + 2 = (m + 1) + 1 from rfl, npDiff_replicate]
  exact npMean_replicate (m + 1) 0 (by omega)

/-- Unfolding of `perform_fft` on a present timestamps array, as nested guards. -/
theorem perform_fft_some (ts : List ℚ) :
    perform_fft (some ts) =
      if ts.length < 2 then none
      else if dtOf ts ≤ 0 then none
      else if numSamplesOf ts ≤ 0 then none
      else some (mkFft (sortedTs ts) (dtOf ts) (numSamplesOf ts).toNat) := rfl

theorem perform_fft_short (ts : List ℚ) (h : ts.length < 2) :
    perform_fft (some ts) = none := by
  rw [perform_fft_some, if_pos h]

theorem perform_fft_dt_nonpos (ts : List ℚ) (h1 : 2 ≤ ts.length)
    (h2 : dtOf ts ≤ 0) : perform_fft (some ts) = none := by
  rw [perform_fft_some, if_neg (by omega), if_pos h2]

theorem perform_fft_few_samples (ts : List ℚ) (h1 : 2 ≤ ts.length)
    (h2 : ¬ dtOf ts ≤ 0) (h3 : numSamplesOf ts ≤ 0) :
    perform_fft (some ts) = none := by
  rw [perform_fft_some, if_neg (by omega), if_neg h2, if_pos h3]

/-- Inversion of a successful spectral estimation. -/
theorem perform_fft_some_inv (ts : List ℚ) (fd : FftData)
    (h : perform_fft (some ts) = some fd) :
    2 ≤ ts.length ∧ 0 < dtOf ts ∧ 0 < numSamplesOf ts ∧
      fd = mkFft (sortedTs ts) (dtOf ts) (numSamplesOf ts).toNat := by
  rw [perform_fft_some] at h
  split at h
  · exact absurd h (by simp)
  · split at h
    · exact absurd h (by simp)
    · split at h
      · exact absurd h (by simp)
      · rename_i h1 h2 h3
        simp only [Option.some.injEq] at h
        exact ⟨by omega, not_le.1 h2, not_le.1 h3, h.symm⟩

theorem boolMask_cons {α : Type} (b : Bool) (ms : List Bool) (x : α) (xs : List α) :
    boolMask (b :: ms) (x :: xs) =
      if b then x :: boolMask ms xs else boolMask ms xs := by
  cases b <;> simp [boolMask, List.filterMap_cons]

theorem boolMask_map_self {α : Type} (q : α → Bool) (l : List α) :
    boolMask (l.map q) l = l.filter q := by
  induction l with
  | nil => rfl
  | cons a l ih =>
    rw [List.map_cons, boolMask_cons, List.filter_cons]
    cases hqa : q a <;> simp [ih]

theorem boolMask_map_map {α β : Type} (q : α → Bool) (g : α → β) (l : List α) :
    boolMask (l.map q) (l.map g) = (l.filter q).map g := by
  induction l with
  | nil => rfl
  | cons a l ih =>
    rw [List.map_cons, List.map_cons, boolMask_cons, List.filter_cons]
    cases hqa : q a <;> simp [ih]

theorem mkFft_freq (ts : List ℚ) (dt : ℚ) (n : Nat) :
    (mkFft ts dt n).freq =
      ((List.range n).filter (fun k => decide (0 < fftfreq n dt k))).map
        (fftfreq n dt) := by
  unfold mkFft
  simp only []
  rw [boolMask_map_self, List.filter_map]
  rfl

theorem mkFft_amplitude (ts : List ℚ) (dt : ℚ) (n : Nat) :
    (mkFft ts dt n).amplitude =
      ((List.range n).filter (fun k => decide (0 < fftfreq n dt k))).map
        (fun k => Complex.abs (dftCoeff (signalOn ts n) k)) := by
  unfold mkFft
  simp only [List.map_map]
  rw [boolMask_map_map, List.map_map]
  rfl

theorem fftfreq_pos_facts (n : Nat) (d : ℚ) (k : Nat) (hd : 0 < d) (hk : k < n)
    (hpos : 0 < fftfreq n d k) : 0 < k ∧ k < (n + 1) / 2 := by
  have hn0 : 0 < n := by omega
  constructor
  · rcases Nat.eq_zero_or_pos k with rfl | h
    · exfalso
      have h0 : fftfreq n d 0 = 0 := by
        unfold fftfreq
        rw [if_pos (by omega)]
        simp
      rw [h0] at hpos
      exact lt_irrefl 0 hpos
    · exact h
  · by_contra hge
    have hneg : fftfreq n d k < 0 := by
      unfold fftfreq
      rw [if_neg hge]
      refine div_neg_of_neg_of_pos ?_ (by positivity)
      have : (k : ℚ) < n := Nat.cast_lt.2 hk
      linarith
    linarith

theorem fftfreq_mono (n : Nat) (d : ℚ) (a b : Nat) (hd : 0 < d)
    (ha : a < (n + 1) / 2) (hb : b < (n + 1) / 2) (hab : a < b) :
    fftfreq n d a < fftfreq n d b := by
  have hn0 : 0 < n := by omega
  unfold fftfreq
  rw [if_pos ha, if_pos hb]
  have hnd : 0 < (n : ℚ) * d := by positivity
  exact (div_lt_div_iff_of_pos_right hnd).2 (Nat.cast_lt.2 hab)

/-- When the estimator succeeded with a positive `dt`, the kept
frequencies are strictly positive and strictly increasing. -/
theorem mkFft_freq_pos_chain (ts : List ℚ) (dt : ℚ) (n : Nat) (hd : 0 < dt) :
    (∀ q ∈ (mkFft ts dt n).freq, 0 < q) ∧
    (mkFft ts dt n).freq.Chain' (· < ·) := by
  rw [mkFft_freq]
  constructor
  · intro q hq
    obtain ⟨k, hk, rfl⟩ := List.mem_map.1 hq
    simpa using (List.mem_filter.1 hk).2
  · have hpw : ((List.range n).filter
        (fun k => decide (0 < fftfreq n dt k))).Pairwise (· < ·) :=
      (List.pairwise_lt_range n).filter _
    have hmem : ∀ k ∈ (List.range n).filter
        (fun k => decide (0 < fftfreq n dt k)), 0 < fftfreq n dt k ∧ k < n := by
      intro k hk
      refine ⟨by simpa using (List.mem_filter.1 hk).2, ?_⟩
      exact List.mem_range.1 (List.mem_filter.1 hk).1
    refine List.Pairwise.chain' ((List.pairwise_map).2 ?_)
    refine hpw.imp_of_mem ?_
    intro a b ha hb hab
    obtain ⟨hFa, han⟩ := hmem a ha
    obtain ⟨hFb, hbn⟩ := hmem b hb
    obtain ⟨-, ha2⟩ := fftfreq_pos_facts n dt a hd han hFa
    obtain ⟨-, hb2⟩ := fftfreq_pos_facts n dt b hd hbn hFb
    exact fftfreq_mono n dt a b hd ha2 hb2 hab

theorem uniformSeries_length (g : ℚ) (n : Nat) :
    ∀ t : ℚ, (uniformSeries t g n).length = n := by
  induction n with
  | zero => intro t; rfl
  | succ k ih => intro t; simp [uniformSeries, ih]

theorem npDiff_uniform (g : ℚ) (n : Nat) :
    ∀ t : ℚ, npDiff (uniformSeries t g (n + 1)) = List.replicate n g := by
  induction n with
  | zero => intro t; rfl
  | succ k ih =>
    intro t
    have e1 : npDiff (uniformSeries t g (k + 2)) =
        ((t + g) - t) :: npDiff (uniformSeries (t + g) g (k + 1)) := rfl
    rw [e1, ih (t + g)]
    have e2 : t + g - t = g := by ring
    rw [e2, List.replicate_succ]

theorem increasingCheck_uniform (t g : ℚ) (n : Nat) (hg : 0 < g) :
    increasingCheck (uniformSeries t g n) = true := by
  cases n with
  | zero => rfl
  | succ k =>
    unfold increasingCheck
    rw [npDiff_uniform]
    simp only [List.all_eq_true]
    intro d hd
    rw [List.eq_of_mem_replicate hd]
    exact decide_eq_true hg

theorem sortedTs_uniform (t g : ℚ) (n : Nat) (hg : 0 < g) :
    sortedTs (uniformSeries t g n) = uniformSeries t g n := by
  unfold sortedTs
  rw [if_pos (increasingCheck_uniform t g n hg)]

theorem dtOf_uniform (t g : ℚ) (n : Nat) (hg : 0 < g) (hn : 2 ≤ n) :
    dtOf (uniformSeries t g n) = g := by
  obtain ⟨m, rfl⟩ : ∃ m, n = m + 2 := ⟨n - 2, by omega⟩
  unfold dtOf
  rw [sortedTs_uniform t g (m + 2) hg, show m + 2 = (m + 1) + 1 from rfl,
    npDiff_uniform]
  exact npMean_replicate (m + 1) g (by omega)

theorem uniformSeries_getLastD (g : ℚ) (n : Nat) :
    ∀ t d : ℚ, (uniformSeries t g (n + 1)).getLastD d = t + n * g := by
  induction n with
  | zero => intro t d; simp [uniformSeries]
  | succ k ih =>
    intro t d
    have e1 : uniformSeries t g (k + 2) = t :: uniformSeries (t + g) g (k + 1) := rfl
    rw [e1, List.getLastD_cons, ih (t + g) t]
    push_cast
    ring

theorem uniformSeries_headD (t g : ℚ) (n : Nat) (d : ℚ) :
    (uniformSeries t g (n + 1)).headD d = t := rfl

theorem numSamplesOf_uniform (t g : ℚ) (n : Nat) (hg : 0 < g) (hn : 2 ≤ n) :
    numSamplesOf (uniformSeries t g n) = ((n - 1 : Nat) : Int) := by
  obtain ⟨m, rfl⟩ : ∃ m, n = m + 2 := ⟨n - 2, by omega⟩
  unfold numSamplesOf
  rw [sortedTs_uniform t g (m + 2) hg, dtOf_uniform t g (m + 2) hg (by omega),
    show m + 2 = (m + 1) + 1 from rfl, uniformSeries_getLastD,
    uniformSeries_headD]
  have e1 : t + (m + 1 : Nat) * g - t = (m + 1 : Nat) * g := by ring
  rw [e1, mul_div_cancel_right₀ _ hg.ne']
  unfold intTrunc
  rw [if_neg (not_lt.2 (by positivity)), Int.floor_natCast]
  norm_num

theorem perform_fft_uniform (t g : ℚ) (n : Nat) (hg : 0 < g) (hn : 2 ≤ n) :
    perform_fft (some (uniformSeries t g n)) =
      some (mkFft (uniformSeries t g n) g (n - 1)) := by
  rw [perform_fft_some, uniformSeries_length, if_neg (by omega),
    dtOf_uniform t g n hg hn, if_neg (not_le.2 hg),
    numSamplesOf_uniform t g n hg hn, if_neg (by omega),
    sortedTs_uniform t g n hg, Int.toNat_natCast]

/-- Claim C6: the Spectral Estimator returns absent rather than raising
whenever the `timestamps` series is missing or has fewer than 2 samples,
whenever the mean consecutive difference `dt` is non-positive (in
particular for any all-identical series), or whenever the uniform-grid
point count `floor((max - min) / dt)` is non-positive; the absence is
advisory — the pipeline still publishes the message, with
`fft_data = None`. -/
theorem spectral_estimator_absence (ts : List ℚ) :
    perform_fft none = none ∧
    (ts.length < 2 → perform_fft (some ts) = none) ∧
    (2 ≤ ts.length → dtOf ts ≤ 0 → perform_fft (some ts) = none) ∧
    (2 ≤ ts.length → ¬ dtOf ts ≤ 0 →
      ⌊((sortedTs ts).getLastD 0 - (sortedTs ts).headD 0) / dtOf ts⌋ ≤ 0 →
      perform_fft (some ts) = none) ∧
    (∀ (n : Nat) (t0 : ℚ), 2 ≤ n →
      perform_fft (some (List.replicate n t0)) = none) ∧
    (∀ (fp : FileProcessor) (registry : List (String × String)) (item : WorkItem)
        (f : FileOut) (fp2 : FileProcessor) (msg : Message),
      item.producer = Except.ok (some f) →
      process_file fp registry item = .ok (fp2, some msg) →
      perform_fft f.tsData = none →
      dictGet msg.stats "fft_data" = some (Val.fftOpt none)) := by
  refine ⟨rfl, perform_fft_short ts, perform_fft_dt_nonpos ts, ?_, ?_, ?_⟩
  · intro h1 h2 h3
    refine perform_fft_few_samples ts h1 h2 ?_
    unfold numSamplesOf intTrunc
    split
    · rename_i hq
      exact Int.ceil_le.2 (by exact_mod_cast hq.le)
    · exact h3
  · intro n t0 hn
    refine perform_fft_dt_nonpos _ (by simpa using hn) ?_
    rw [dtOf_replicate n t0 hn]
  · intro fp registry item f fp2 msg hf h hfft
    obtain ⟨ptype, f', hreg, hp, h3, hfp, hmsg⟩ :=
      process_file_ok_inv fp registry item fp2 msg h
    rw [hf] at hp
    simp only [Except.ok.injEq, Option.some.injEq] at hp
    subst hp
    subst hmsg
    show dictGet (_ :: _ :: _ :: _ :: _ ::
        (if ptype = "gagescope" then
          ("fft_data", Val.fftOpt (perform_fft f.tsData)) :: _
         else ("fft_data", Val.fftOpt none) :: _)) "fft_data" =
      some (Val.fftOpt none)
    by_cases hg : ptype = "gagescope"
    · simp only [if_pos hg, hfft]
      rfl
    · simp only [if_neg hg]
      rfl

/-- Witness for C6: a single-sample series and an all-identical series
both yield an absent spectrum. -/
theorem spectral_estimator_absence_witness :
    perform_fft (some [(0 : ℚ)]) = none ∧
    perform_fft (some (List.replicate 3 (5 : ℚ))) = none :=
  ⟨(spectral_estimator_absence [(0 : ℚ)]).2.1 (by norm_num),
   (spectral_estimator_absence [(0 : ℚ)]).2.2.2.2.1 3 5 (by norm_num)⟩

/-- Claim C7: a successful spectral estimation keeps exactly the DFT
bins of strictly positive frequency, each paired with the absolute value
of its complex coefficient, and its frequency sequence is strictly
positive and strictly increasing; every uniform series (n ≥ 2 samples,
positive gap) produces a spectrum. -/
theorem spectral_positive_bins :
    (∀ (ts : List ℚ) (fd : FftData), perform_fft (some ts) = some fd →
      fd.freq = ((List.range (numSamplesOf ts).toNat).filter
          (fun k => decide (0 < fftfreq (numSamplesOf ts).toNat (dtOf ts) k))).map
          (fftfreq (numSamplesOf ts).toNat (dtOf ts)) ∧
      fd.amplitude = ((List.range (numSamplesOf ts).toNat).filter
          (fun k => decide (0 < fftfreq (numSamplesOf ts).toNat (dtOf ts) k))).map
          (fun k => Complex.abs
            (dftCoeff (signalOn (sortedTs ts) (numSamplesOf ts).toNat) k)) ∧
      (∀ q ∈ fd.freq, 0 < q) ∧
      fd.freq.Chain' (· < ·)) ∧
    (∀ (t g : ℚ) (n : Nat), 0 < g → 2 ≤ n →
      (perform_fft (some (uniformSeries t g n))).isSome = true) := by
  constructor
  · intro ts fd h
    obtain ⟨h1, h2, h3, rfl⟩ := perform_fft_some_inv ts fd h
    exact ⟨mkFft_freq _ _ _, mkFft_amplitude _ _ _,
      (mkFft_freq_pos_chain _ _ _ h2).1, (mkFft_freq_pos_chain _ _ _ h2).2⟩
  · intro t g n hg hn
    rw [perform_fft_uniform t g n hg hn]
    rfl

/-- Witness for C7: the 5-point unit-spaced series succeeds; its kept
frequency list is strictly increasing. -/
theorem spectral_positive_bins_witness :
    (mkFft (uniformSeries 0 1 5) 1 4).freq.Chain' (· < ·) ∧
    (perform_fft (some (uniformSeries 0 1 5))).isSome = true :=
  ⟨(spectral_positive_bins.1 (uniformSeries 0 1 5)
      (mkFft (uniformSeries 0 1 5) 1 4)
      (perform_fft_uniform 0 1 5 (by norm_num) (by norm_num))).2.2.2,
   spectral_positive_bins.2 0 1 5 (by norm_num) (by norm_num)⟩

/-! ## Lemmas: acceptance policy (a) -/

theorem npDiff_getD (ts : List ℚ) (i : Nat) (h : i + 1 < ts.length) :
    (npDiff ts).getD i 0 = ts.getD (i + 1) 0 - ts.getD i 0 := by
  induction ts generalizing i with
  | nil => simp at h
  | cons a l ih =>
    cases l with
    | nil => simp at h
    | cons b l' =>
      cases i with
      | zero => rfl
      | succ j =>
        rw [npDiff_cons₂]
        simp only [List.getD_cons_succ]
        exact ih j (by simpa using h)

theorem npDiff_sum (ts : List ℚ) (h : ts ≠ []) :
    (npDiff ts).sum = ts.getLastD 0 - ts.headD 0 := by
  induction ts with
  | nil => simp at h
  | cons a l ih =>
    cases l with
    | nil => simp [npDiff]
    | cons b l' =>
      rw [npDiff_cons₂, List.sum_cons, ih (List.cons_ne_nil b l')]
      simp only [List.getLastD_cons, List.headD_cons]
      ring

theorem avg_gap_of_const (ts : List ℚ) (g : ℚ) (h2 : 2 ≤ ts.length)
    (hdiff : npDiff ts = List.replicate (ts.length - 1) g) :
    avg_gap ts = g := by
  unfold avg_gap
  have hne : ts ≠ [] := by
    cases ts
    · simp at h2
    · simp
  have hsum := npDiff_sum ts hne
  rw [hdiff, List.sum_replicate, nsmul_eq_mul] at hsum
  rw [← hsum]
  exact mul_div_cancel_left₀ g (Nat.cast_ne_zero.2 (by omega))

theorem gap_of_const (ts : List ℚ) (g : ℚ)
    (hdiff : npDiff ts = List.replicate (ts.length - 1) g)
    (j : Nat) (hj : j + 1 < ts.length) :
    ts.getD (j + 1) 0 - ts.getD j 0 = g := by
  have h1 := npDiff_getD ts j hj
  rw [hdiff] at h1
  rw [← h1, List.getD_eq_getElem?_getD, List.getElem?_replicate,
    if_pos (by omega)]
  rfl

theorem locallyCorrect_of_const (ts : List ℚ) (g : ℚ) (h2 : 2 ≤ ts.length)
    (hg : 0 ≤ g) (hdiff : npDiff ts = List.replicate (ts.length - 1) g)
    (i : Nat) (hi : i < ts.length) :
    locallyCorrect ts i = true := by
  unfold locallyCorrect
  rw [avg_gap_of_const ts g h2 hdiff]
  simp only [Bool.and_eq_true, Bool.or_eq_true, decide_eq_true_eq]
  constructor
  · by_cases hi0 : i = 0
    · exact Or.inl hi0
    · refine Or.inr ?_
      have hgap := gap_of_const ts g hdiff (i - 1) (by omega)
      rw [show i - 1 + 1 = i by omega] at hgap
      rw [hgap]
      simp only [sub_self, abs_zero]
      positivity
  · by_cases hil : i = ts.length - 1
    · exact Or.inl hil
    · refine Or.inr ?_
      have hgap := gap_of_const ts g hdiff i (by omega)
      rw [hgap]
      simp only [sub_self, abs_zero]
      positivity

theorem percentCorrect_of_const (ts : List ℚ) (g : ℚ) (h2 : 2 ≤ ts.length)
    (hg : 0 ≤ g) (hdiff : npDiff ts = List.replicate (ts.length - 1) g) :
    percentCorrect ts = 100 := by
  unfold percentCorrect countLocallyCorrect
  rw [List.filter_eq_self.2 ?_]
  · rw [List.length_range]
    rw [div_self (Nat.cast_ne_zero.2 (by omega))]
    norm_num
  · intro a ha
    exact locallyCorrect_of_const ts g h2 hg hdiff a (List.mem_range.1 ha)

/-- Counterexample to claim C9 as stated: the two-sample series
`[0, -1]` has all consecutive gaps equal to the constant `-1`, yet the
spec's policy (a) reports 0% locally correct and rejects (the tolerance
`R·avg_gap` is negative). -/
theorem policy_a_constant_gap_cex :
    npDiff [(0 : ℚ), -1] = List.replicate 1 (-1) ∧
    percentCorrect [(0 : ℚ), -1] = 0 ∧
    policy_a_accept [(0 : ℚ), -1] = false := by
  refine ⟨by norm_num [show npDiff [(0 : ℚ), -1] = [-1 - 0] from rfl], ?_, ?_⟩
  · norm_num [percentCorrect, countLocallyCorrect, locallyCorrect, avg_gap,
      List.range_succ, List.filter_append, List.filter_cons, abs_le]
  · norm_num [policy_a_accept, percentCorrect, countLocallyCorrect,
      locallyCorrect, avg_gap, List.range_succ, List.filter_append,
      List.filter_cons, abs_le]

/-- Claim C9 as amended: under policy (a) with deviation ratio `R = 0.2`,
every timestamp series of length at least 2 whose consecutive gaps all
equal a constant `g ≥ 0` is reported 100% locally correct and accepted
(for negative `g` the tolerance is negative and the policy rejects, see
the counterexample); a series whose locally-correct percentage is
exactly 80.0 is accepted — the boundary is inclusive. -/
theorem policy_a_regular_accepts :
    (∀ (ts : List ℚ) (g : ℚ), 2 ≤ ts.length → 0 ≤ g →
      npDiff ts = List.replicate (ts.length - 1) g →
      percentCorrect ts = 100 ∧ policy_a_accept ts = true) ∧
    (∀ ts : List ℚ, percentCorrect ts = 80 → policy_a_accept ts = true) := by
  constructor
  · intro ts g h2 hg hdiff
    have hp := percentCorrect_of_const ts g h2 hg hdiff
    refine ⟨hp, ?_⟩
    unfold policy_a_accept
    rw [hp]
    norm_num
  · intro ts hp
    unfold policy_a_accept
    rw [hp]
    norm_num

/-- Witness for the amended C9: the unit-spaced three-sample series is
fully correct and accepted; a ten-sample series with one bad gap sits at
exactly 80% and is accepted. -/
theorem policy_a_regular_accepts_witness :
    (percentCorrect [(0 : ℚ), 1, 2] = 100 ∧
      policy_a_accept [(0 : ℚ), 1, 2] = true) ∧
    policy_a_accept [(0 : ℚ), 1, 2, 3, 4, 6, 7, 8, 9, 10] = true := by
  constructor
  · refine policy_a_regular_accepts.1 [(0 : ℚ), 1, 2] 1 (by norm_num)
      (by norm_num) ?_
    norm_num [show npDiff [(0 : ℚ), 1, 2] = [1 - 0, 2 - 1] from rfl,
      List.replicate_succ]
  · refine policy_a_regular_accepts.2 _ ?_
    norm_num [percentCorrect, countLocallyCorrect, locallyCorrect, avg_gap,
      List.range_succ, List.filter_append, List.filter_cons, abs_le]

end E6Daq
